import Mathlib

/-!
Verification of the `ClaudeCodingAgent` core (`claude_coding_agent.py`):
the path-confinement permission layer (`_is_subpath`, `permission_handler`),
the result-extraction ladder (`_parse_result_json` and the `ResultMessage`
branch of `run`), and the tool-result trace rendering in `run`.

Modelling conventions:
* A canonical absolute path (the output of `Path(...).resolve()`) is a list
  of path components (`List String`); the filesystem root is `[]`.
  `Path.resolve` itself touches the filesystem (cwd, symlinks), so it is
  passed to the embedded functions as an explicit `resolve : String → List String`
  argument; theorems quantify over it.
* Python `json.loads` is likewise external; it is passed as
  `jl : String → Option PyValue`, where `Option.none` models a raised
  `JSONDecodeError` and `PyValue.null` models a successful parse of `null`
  (Python `None`).
* Python values in tool-input dicts are modelled as `Option String`
  (`Option.none` models Python `None`); dict lookup `d.get(k)` is
  `dictGet`, and Python truthiness of such a value is `truthyS`.
-/

/-- The proper ancestors of a canonical path, as in Python `Path.parents`:
for `/a/b/c` these are `/a/b`, `/a` and `/` (order is irrelevant, the code
only tests membership). -/
def pathParents (t : List String) : List (List String) :=
  (List.range t.length).map (fun n => t.take n)

/-- Embedding of `ClaudeCodingAgent._is_subpath`:
`any(target == p or p in target.parents for p in whitelist)`. -/
def _is_subpath (target : List String) (whitelist : List (List String)) : Bool :=
  whitelist.any (fun p => target == p || (pathParents target).contains p)

/-- The guard used by `permission_handler` for each scoped tool category:
`len(scope) == 0 or self._is_subpath(target_path, scope)`. -/
def scope_allows (target : List String) (scope : List (List String)) : Bool :=
  scope.length == 0 || _is_subpath target scope

/-- Spec-side notion: `t` is a proper descendant of `p` (the components of
`p` form a proper initial segment of the components of `t`). -/
def properDescendantOf (t p : List String) : Prop :=
  t.take p.length = p ∧ p ≠ t

instance (t p : List String) : Decidable (properDescendantOf t p) := by
  unfold properDescendantOf; infer_instance

/-- Result type of the permission callback: `PermissionResultAllow` or
`PermissionResultDeny(message=...)`. -/
inductive PermissionResult where
  | allow : PermissionResult
  | deny (message : String) : PermissionResult
deriving DecidableEq

/-- The read-gated tool names of `permission_handler`. -/
def READ_TOOLS : List String := ["Read", "Grep", "Glob"]

/-- The write-gated tool names of `permission_handler`. -/
def WRITE_TOOLS : List String := ["Write", "Edit", "MultiEdit"]

/-- Python `tool_input.get(k)`: the stored value of the first binding of
`k`, or `None` when `k` is absent (a stored Python `None` is `Option.none`
as well, exactly as `.get` returns it). -/
def dictGet (d : List (String × Option String)) (k : String) : Option String :=
  match d.find? (fun kv => kv.fst == k) with
  | Option.some kv => kv.snd
  | Option.none => Option.none

/-- Python truthiness of a `str | None` value: `None` and `""` are falsy. -/
def truthyS : Option String → Bool
  | Option.none => false
  | Option.some s => !(s == "")

/-- Python `a or b` on `str | None` values. -/
def pyOrStr (a b : Option String) : Option String :=
  if truthyS a then a else b

/-- Embedding of `ClaudeCodingAgent.permission_handler`.  Mirrors the source:
extract `tool_input.get("file_path") or tool_input.get("path")`; a falsy
path allows; otherwise resolve the path and check the read list, then the
write list, each with the guard `scope_allows`; any other tool allows. -/
def permission_handler (resolve : String → List String)
    (readable_paths writable_paths : List (List String))
    (tool_name : String) (tool_input : List (String × Option String)) :
    PermissionResult :=
  match pyOrStr (dictGet tool_input "file_path") (dictGet tool_input "path") with
  | Option.none => PermissionResult.allow
  | Option.some path_str =>
    if path_str == "" then PermissionResult.allow
    else
      let target_path := resolve path_str
      if tool_name ∈ READ_TOOLS then
        if scope_allows target_path readable_paths then PermissionResult.allow
        else
          PermissionResult.deny
            ("Access Denied: " ++ path_str ++ " is not in readable whitelist.")
      else if tool_name ∈ WRITE_TOOLS then
        if scope_allows target_path writable_paths then PermissionResult.allow
        else
          PermissionResult.deny
            ("Access Denied: " ++ path_str ++ " is not in writable whitelist.")
      else PermissionResult.allow

/-- `sub` occurs as a contiguous substring of `s`. -/
def strContains (s sub : String) : Prop :=
  ∃ a b, s = a ++ sub ++ b

/-- A Python value as returned by `json.loads` (and as held in
`message.structured_output`): `null` is Python `None`. -/
inductive PyValue where
  | null : PyValue
  | bool (b : Bool) : PyValue
  | num (n : Int) : PyValue
  | str (s : String) : PyValue
  | arr (xs : List PyValue) : PyValue
  | obj (fields : List (String × PyValue)) : PyValue

/-- Spec-side schema test: the value is an object carrying a boolean
`status`, a string `summary` and a string `insights` (the `TaskResult`
schema). -/
def isTaskResultJson (j : PyValue) : Bool :=
  match j with
  | PyValue.obj fields =>
    (match (fields.find? (fun kv => kv.fst == "status")).map Prod.snd with
      | Option.some (PyValue.bool _) => true
      | _ => false)
    && (match (fields.find? (fun kv => kv.fst == "summary")).map Prod.snd with
      | Option.some (PyValue.str _) => true
      | _ => false)
    && (match (fields.find? (fun kv => kv.fst == "insights")).map Prod.snd with
      | Option.some (PyValue.str _) => true
      | _ => false)
  | _ => false

/-- Python `\s` for the ASCII range (the inputs of interest are ASCII). -/
def isPySpace (c : Char) : Bool :=
  c = ' ' || c = '\t' || c = '\n' || c = '\r' || c = '\x0b' || c = '\x0c'

/-- Python `str.strip()` (ASCII whitespace). -/
def pyStrip (s : String) : String :=
  String.mk (((s.data.dropWhile isPySpace).reverse.dropWhile isPySpace).reverse)

/-- `startsWithL p s`: `p` is an initial segment of `s`. -/
def startsWithL : List Char → List Char → Bool
  | [], _ => true
  | _ :: _, [] => false
  | p :: ps, c :: cs => p == c && startsWithL ps cs

/-- The lazy tail of the pattern, `(.*?)\n?` followed by a closing fence:
returns the capture group for the shortest prefix after which either a
fence, or a newline directly followed by a fence, begins (the trailing
`\n?` is greedy, but at any one position at most one of the two
alternatives can hold, so shortest-capture-first is the exact Python
backtracking order). -/
def findLazyEnd : List Char → Option (List Char)
  | [] => Option.none
  | c :: cs =>
    if startsWithL ("```".data) (c :: cs) then Option.some []
    else if c = '\n' && startsWithL ("```".data) cs then Option.some []
    else
      match findLazyEnd cs with
      | Option.some g => Option.some (c :: g)
      | Option.none => Option.none

/-- One attempted match of `` ```(?:json)?\s*\n?(.*?)\n?``` `` (DOTALL) at
the head of `s`, returning the capture group.

The committed (non-backtracking) choices are exact w.r.t. Python's engine:
* `(?:json)?` is greedy; consuming a present `json` can never lose a match
  that skipping it would find, because the skipped-over characters are
  `j`,`s`,`o`,`n`, none of which can contribute to a closing backtick run.
* `\s*` is greedy; taking the maximal whitespace run never loses a match,
  because whitespace characters cannot contribute to a closing backtick
  run either, so a closing fence exists after the maximal run iff one
  exists at all.
* After the maximal `\s*` run the next character is not whitespace, so the
  following `\n?` necessarily matches the empty string. -/
def matchAt (s : List Char) : Option (List Char) :=
  if startsWithL ("```".data) s then
    let r1 := s.drop 3
    let r2 := if startsWithL ("json".data) r1 then r1.drop 4 else r1
    findLazyEnd (r2.dropWhile isPySpace)
  else Option.none

/-- `re.search` of the fence pattern: leftmost starting position wins. -/
def searchFence : List Char → Option (List Char)
  | [] => Option.none
  | c :: cs =>
    match matchAt (c :: cs) with
    | Option.some g => Option.some g
    | Option.none => searchFence cs

/-- The tail of `_parse_result_json` (stages 3 and 4): try
`json.loads(result.strip())`, else synthesize
`{"status": True, "summary": result[:500], "insights": ""}`. -/
def parseRest (jl : String → Option PyValue) (result : String) : PyValue :=
  match jl (pyStrip result) with
  | Option.some v => v
  | Option.none =>
    PyValue.obj [("status", PyValue.bool true),
                 ("summary", PyValue.str (String.mk (result.data.take 500))),
                 ("insights", PyValue.str "")]

/-- Embedding of `ClaudeCodingAgent._parse_result_json`: search for a
fenced code block; on a match try `json.loads(group(1).strip())`, and on a
`JSONDecodeError` (or no match) fall through to `parseRest`. -/
def parseResultJson (jl : String → Option PyValue) (result : String) : PyValue :=
  match searchFence result.data with
  | Option.some g =>
    match jl (pyStrip (String.mk g)) with
    | Option.some v => v
    | Option.none => parseRest jl result
  | Option.none => parseRest jl result

/-- A Python value stored into `final_result : dict | None`: `None`
(i.e. `PyValue.null`) is the absence value. -/
def pyToOpt : PyValue → Option PyValue
  | PyValue.null => Option.none
  | v => Option.some v

/-- Embedding of the `ResultMessage` branch of `ClaudeCodingAgent.run`:
`if message.structured_output is not None:` use it directly;
`elif message.result:` (Python truthiness, so the empty string is skipped)
parse it with the ladder; otherwise `final_result` stays `None`. -/
def extractRunResult (structured : Option PyValue) (raw : Option String)
    (jl : String → Option PyValue) : Option PyValue :=
  match structured with
  | Option.some s => Option.some s
  | Option.none =>
    match raw with
    | Option.some r =>
      if r = "" then Option.none else pyToOpt (parseResultJson jl r)
    | Option.none => Option.none

/-- Charwise embedding of `display.replace("\n", "\\n")`. -/
def escList : List Char → List Char
  | [] => []
  | c :: cs => if c = '\n' then '\\' :: 'n' :: escList cs else c :: escList cs

/-- `str.replace("\n", "\\n")` on strings. -/
def escapeNewlines (s : String) : String := String.mk (escList s.data)

/-- Embedding of the `ToolResultBlock` content rendering in
`ClaudeCodingAgent.run` (string content): truncate to
`content[:100] + "..." + content[-100:]` when longer than 200 characters,
then escape newlines. -/
def renderToolResultDisplay (content : String) : String :=
  let display :=
    if 200 < content.data.length then
      String.mk (content.data.take 100) ++ "..."
        ++ String.mk (content.data.drop (content.data.length - 100))
    else content
  escapeNewlines display

/-- Embedding of `status = "ERROR" if content_block.is_error else "OK"`. -/
def renderStatus (e : Bool) : String := if e then "ERROR" else "OK"

theorem mem_pathParents_iff (p t : List String) :
    p ∈ pathParents t ↔ t.take p.length = p ∧ p ≠ t := by
  unfold pathParents
  simp only [List.mem_map, List.mem_range]
  constructor
  · rintro ⟨n, hn, rfl⟩
    have hlen : (t.take n).length = n := by
      simp [List.length_take, Nat.min_eq_left (Nat.le_of_lt hn)]
    constructor
    · rw [hlen]
    · intro h
      have := congrArg List.length h
      rw [hlen] at this
      omega
  · rintro ⟨htake, hne⟩
    refine ⟨p.length, ?_, htake⟩
    have hle : p.length ≤ t.length := by
      have := congrArg List.length htake
      simp [List.length_take] at this
      omega
    rcases Nat.lt_or_ge p.length t.length with h | h
    · exact h
    · exfalso
      have heq : p.length = t.length := Nat.le_antisymm hle h
      rw [heq, List.take_length] at htake
      exact hne htake.symm

theorem _is_subpath_iff (t : List String) (S : List (List String)) :
    _is_subpath t S = true ↔ ∃ p ∈ S, t = p ∨ properDescendantOf t p := by
  unfold _is_subpath properDescendantOf
  simp only [List.any_eq_true, Bool.or_eq_true, beq_iff_eq,
    List.contains, List.elem_iff, mem_pathParents_iff]

theorem scope_allows_iff_mem (t : List String) (S : List (List String)) :
    scope_allows t S = true ↔
      S = [] ∨ t ∈ S ∨ ∃ p ∈ S, properDescendantOf t p := by
  unfold scope_allows
  simp only [Bool.or_eq_true, beq_iff_eq, List.length_eq_zero, _is_subpath_iff]
  constructor
  · rintro (h | ⟨p, hp, (rfl | hd)⟩)
    · exact Or.inl h
    · exact Or.inr (Or.inl hp)
    · exact Or.inr (Or.inr ⟨p, hp, hd⟩)
  · rintro (h | h | ⟨p, hp, hd⟩)
    · exact Or.inl h
    · exact Or.inr ⟨t, h, Or.inl rfl⟩
    · exact Or.inr ⟨p, hp, Or.inr hd⟩

theorem scope_allows_singleton (t R : List String) :
    scope_allows t [R] = true ↔ t = R ∨ properDescendantOf t R := by
  rw [scope_allows_iff_mem]
  simp

theorem permission_handler_file_path (resolve : String → List String)
    (rs ws : List (List String)) (tool P : String) (hP : P ≠ "") :
    permission_handler resolve rs ws tool [("file_path", Option.some P)] =
      (if tool ∈ READ_TOOLS then
        (if scope_allows (resolve P) rs then PermissionResult.allow
         else PermissionResult.deny
           ("Access Denied: " ++ P ++ " is not in readable whitelist."))
       else if tool ∈ WRITE_TOOLS then
        (if scope_allows (resolve P) ws then PermissionResult.allow
         else PermissionResult.deny
           ("Access Denied: " ++ P ++ " is not in writable whitelist."))
       else PermissionResult.allow) := by
  have h3 : (P == "") = false := by
    rw [beq_eq_false_iff_ne]; exact hP
  have h1 : dictGet [("file_path", Option.some P)] "file_path" = Option.some P := rfl
  have h2 : dictGet [("file_path", Option.some P)] "path" = Option.none := rfl
  unfold permission_handler
  rw [h1, h2]
  simp [pyOrStr, truthyS, h3]

/-- C1: the guard `len(scope) == 0 or _is_subpath(resolved_target, scope)`
holds iff the scope is empty, or the canonical target equals a member of
the scope, or it is a proper descendant of some member of the scope. -/
theorem containment_guard_iff (t : List String) (S : List (List String)) :
    scope_allows t S = true ↔
      S = [] ∨ t ∈ S ∨ ∃ p ∈ S, properDescendantOf t p :=
  scope_allows_iff_mem t S

/-- C2 (counterexample): a `Read` call whose `file_path` is the empty
string is allowed even though its canonical form (here, what `resolve`
maps `""` to) is neither the single readable root nor a descendant of it —
the claim demands a denial for it. -/
theorem scoped_tool_decision_counterexample :
    permission_handler (fun _ => ["tmp", "x"]) [["home", "r"]] [] "Read"
        [("file_path", Option.some "")] = PermissionResult.allow
    ∧ ¬ (["tmp", "x"] = ["home", "r"]
        ∨ properDescendantOf ["tmp", "x"] ["home", "r"]) := by
  exact ⟨rfl, by decide⟩

/-- C2 (amended): for every NON-EMPTY path string `P` and singleton scope
`{R}`, a read-gated tool is allowed iff the canonical form of `P` is `R`
or a proper descendant of `R`, and otherwise denied with a message that
contains `P` and names the readable whitelist; analogously for the
write-gated tools against the write scope. -/
theorem scoped_tool_decision (resolve : String → List String) (P : String)
    (R : List String) (tool : String) (hP : P ≠ "") :
    (tool ∈ READ_TOOLS →
      permission_handler resolve [R] [] tool [("file_path", Option.some P)] =
        (if resolve P = R ∨ properDescendantOf (resolve P) R then
          PermissionResult.allow
         else PermissionResult.deny
           ("Access Denied: " ++ P ++ " is not in readable whitelist.")))
    ∧ (tool ∈ WRITE_TOOLS →
      permission_handler resolve [] [R] tool [("file_path", Option.some P)] =
        (if resolve P = R ∨ properDescendantOf (resolve P) R then
          PermissionResult.allow
         else PermissionResult.deny
           ("Access Denied: " ++ P ++ " is not in writable whitelist.")))
    ∧ strContains ("Access Denied: " ++ P ++ " is not in readable whitelist.") P
    ∧ strContains ("Access Denied: " ++ P ++ " is not in readable whitelist.")
        "readable whitelist"
    ∧ strContains ("Access Denied: " ++ P ++ " is not in writable whitelist.")
        "writable whitelist" := by
  refine ⟨?_, ?_, ?_, ?_, ?_⟩
  · intro hr
    rw [permission_handler_file_path resolve [R] [] tool P hP, if_pos hr]
    by_cases hd : resolve P = R ∨ properDescendantOf (resolve P) R
    · rw [if_pos hd, (scope_allows_singleton (resolve P) R).mpr hd]
      rfl
    · rw [if_neg hd]
      have hfalse : scope_allows (resolve P) [R] = false := by
        cases h : scope_allows (resolve P) [R] with
        | false => rfl
        | true => exact absurd ((scope_allows_singleton (resolve P) R).mp h) hd
      rw [hfalse]
      rfl
  · intro hw
    have hnr : tool ∉ READ_TOOLS := by
      simp only [WRITE_TOOLS, List.mem_cons, List.not_mem_nil, or_false] at hw
      rcases hw with rfl | rfl | rfl <;> decide
    rw [permission_handler_file_path resolve [] [R] tool P hP, if_neg hnr,
      if_pos hw]
    by_cases hd : resolve P = R ∨ properDescendantOf (resolve P) R
    · rw [if_pos hd, (scope_allows_singleton (resolve P) R).mpr hd]
      rfl
    · rw [if_neg hd]
      have hfalse : scope_allows (resolve P) [R] = false := by
        cases h : scope_allows (resolve P) [R] with
        | false => rfl
        | true => exact absurd ((scope_allows_singleton (resolve P) R).mp h) hd
      rw [hfalse]
      rfl
  · exact ⟨"Access Denied: ", " is not in readable whitelist.", rfl⟩
  · exact ⟨"Access Denied: " ++ P ++ " is not in ", ".", by
      simp only [String.append_assoc]
      rfl⟩
  · exact ⟨"Access Denied: " ++ P ++ " is not in ", ".", by
      simp only [String.append_assoc]
      rfl⟩

/-- C2 (witness): a concrete denial, for a resolved target outside the
readable root. -/
theorem scoped_tool_decision_witness :
    permission_handler (fun _ => ["etc", "passwd"]) [["home", "user"]] []
        "Read" [("file_path", Option.some "/etc/passwd")] =
      PermissionResult.deny
        ("Access Denied: " ++ "/etc/passwd" ++ " is not in readable whitelist.") := by
  have h := (scoped_tool_decision (fun _ => ["etc", "passwd"]) "/etc/passwd"
    ["home", "user"] "Read" (by decide)).1 (by decide)
  rw [h, if_neg (by decide)]

/-- C3: when neither `file_path` nor `path` yields a candidate path, the
handler allows unconditionally, for every tool and every pair of scopes. -/
theorem no_path_param_allows (resolve : String → List String)
    (rs ws : List (List String)) (tool : String)
    (d : List (String × Option String))
    (h1 : dictGet d "file_path" = Option.none)
    (h2 : dictGet d "path" = Option.none) :
    permission_handler resolve rs ws tool d = PermissionResult.allow := by
  unfold permission_handler
  rw [h1, h2]
  rfl

/-- C3 (witness): a `Write` call with no path parameter is allowed even
under a restrictive write scope. -/
theorem no_path_param_allows_witness :
    permission_handler (fun _ => []) [["r"]] [["w"]] "Write"
      [("content", Option.some "x")] = PermissionResult.allow :=
  no_path_param_allows _ _ _ _ _ rfl rfl

/-- C4: a tool outside both the read category and the write category is
always allowed, whatever the scopes and the parameters. -/
theorem non_path_tool_allows (resolve : String → List String)
    (rs ws : List (List String)) (tool : String)
    (d : List (String × Option String))
    (h1 : tool ∉ READ_TOOLS) (h2 : tool ∉ WRITE_TOOLS) :
    permission_handler resolve rs ws tool d = PermissionResult.allow := by
  unfold permission_handler
  cases hp : pyOrStr (dictGet d "file_path") (dictGet d "path") with
  | none => rfl
  | some ps =>
    by_cases hps : ps == ""
    · simp [hps]
    · simp [hps, h1, h2]

/-- C4 (witness): `Bash` with a path-like parameter is allowed under
restrictive scopes. -/
theorem non_path_tool_allows_witness :
    permission_handler (fun _ => ["x"]) [["r"]] [["w"]] "Bash"
      [("file_path", Option.some "/x"), ("cmd", Option.some "rm -rf /")] =
      PermissionResult.allow :=
  non_path_tool_allows _ _ _ _ _ (by decide) (by decide)

/-- C10: a falsy value under both path aliases bypasses the whitelist
check entirely (the call is allowed for every tool and scopes), and when
`file_path` carries a truthy value it takes precedence: the decision is
the same as if `file_path` were the only parameter. -/
theorem falsy_path_and_alias_precedence (resolve : String → List String)
    (rs ws : List (List String)) (tool : String)
    (d : List (String × Option String)) :
    ((truthyS (dictGet d "file_path") = false) →
      (truthyS (dictGet d "path") = false) →
      permission_handler resolve rs ws tool d = PermissionResult.allow)
    ∧ (∀ v : String, dictGet d "file_path" = Option.some v → v ≠ "" →
        permission_handler resolve rs ws tool d =
          permission_handler resolve rs ws tool [("file_path", Option.some v)]) := by
  constructor
  · intro h1 h2
    unfold permission_handler pyOrStr
    rw [h1]
    simp only [if_false, Bool.false_eq_true]
    cases hb : dictGet d "path" with
    | none => rfl
    | some s =>
      rw [hb] at h2
      unfold truthyS at h2
      simp only [Bool.not_eq_false'] at h2
      simp [h2]
  · intro v hv hne
    have hvt : truthyS (Option.some v) = true := by
      unfold truthyS
      simp [hne]
    have h1 : dictGet [("file_path", Option.some v)] "file_path" =
        Option.some v := rfl
    have h2 : dictGet [("file_path", Option.some v)] "path" = Option.none := rfl
    unfold permission_handler
    rw [hv, h1, h2]
    unfold pyOrStr
    rw [hvt]
    simp

/-- C10 (witness): empty-string path aliases bypass a restrictive write
whitelist, and `file_path` shadows `path`. -/
theorem falsy_path_and_alias_precedence_witness :
    (permission_handler (fun _ => ["x"]) [] [["w"]] "Write"
        [("file_path", Option.some ""), ("path", Option.some "")] =
      PermissionResult.allow)
    ∧ (permission_handler (fun _ => ["w"]) [] [["w"]] "Write"
        [("file_path", Option.some "a"), ("path", Option.some "b")] =
      permission_handler (fun _ => ["w"]) [] [["w"]] "Write"
        [("file_path", Option.some "a")]) :=
  ⟨(falsy_path_and_alias_precedence _ _ _ _ _).1 rfl rfl,
   (falsy_path_and_alias_precedence _ _ _ _ _).2 "a" rfl (by decide)⟩

theorem pyToOpt_eq_none (v : PyValue) :
    pyToOpt v = Option.none ↔ v = PyValue.null := by
  cases v <;> simp [pyToOpt]

/-- C5 (counterexample): with no structured output and `raw_text` present
but equal to the empty string, the run stores no result (the code tests
`elif message.result:`, Python truthiness), although the claim says a
result is absent only when neither payload is present. -/
theorem extract_result_absence_counterexample :
    extractRunResult Option.none (Option.some "") (fun _ => Option.none) =
      Option.none
    ∧ (Option.some "" : Option String).isSome = true :=
  ⟨rfl, rfl⟩

/-- C5 (amended): the run result is absent iff `structured_output` is
absent and `raw_text` is absent, or empty, or parses through the ladder to
JSON `null`; in every other case the ladder produces a result (parse
failures fall through, they never abort). -/
theorem extract_result_absence (s : Option PyValue) (r : Option String)
    (jl : String → Option PyValue) :
    extractRunResult s r jl = Option.none ↔
      s = Option.none ∧ (r = Option.none ∨ r = Option.some "" ∨
        ∃ t, r = Option.some t ∧ t ≠ "" ∧ parseResultJson jl t = PyValue.null) := by
  cases s with
  | some v => simp [extractRunResult]
  | none =>
    cases r with
    | none => simp [extractRunResult]
    | some t =>
      by_cases ht : t = ""
      · subst ht
        simp [extractRunResult]
      · simp only [extractRunResult, ht, if_false, pyToOpt_eq_none,
          Option.some.injEq, true_and]
        constructor
        · intro h
          exact Or.inr (Or.inr ⟨t, rfl, ht, h⟩)
        · rintro (h | h | ⟨u, rfl, _, hu⟩)
          · exact absurd h (by simp)
          · exact absurd h (by simp [ht])
          · exact hu

/-- C6: when `structured_output` is present (and schema-valid), it is used
directly, whatever `raw_text` holds and however it would parse. -/
theorem extract_prefers_structured (A : PyValue) (B : String)
    (jl : String → Option PyValue) (_hA : isTaskResultJson A = true) :
    extractRunResult (Option.some A) (Option.some B) jl = Option.some A := rfl

/-- C6 (witness): the structured payload wins even though the raw text
parses to a different valid TaskResult. -/
theorem extract_prefers_structured_witness :
    extractRunResult
      (Option.some (PyValue.obj [("status", PyValue.bool true),
        ("summary", PyValue.str "ok"), ("insights", PyValue.str "")]))
      (Option.some "\x7b\"status\": false, \"summary\": \"different\", \"insights\": \"\"\x7d")
      (fun _ => Option.some (PyValue.obj [("status", PyValue.bool false),
        ("summary", PyValue.str "different"), ("insights", PyValue.str "")])) =
    Option.some (PyValue.obj [("status", PyValue.bool true),
      ("summary", PyValue.str "ok"), ("insights", PyValue.str "")]) :=
  extract_prefers_structured _ _ _ rfl

/-- C7 (counterexample): the code performs no TaskResult schema check on a
fenced block: the block `{}` parses as JSON, is returned as the result
although it is not a TaskResult, and the ladder does not fall through to
the later stages (which would have synthesized a different value). -/
theorem parse_result_json_code_block_counterexample :
    parseResultJson
        (fun s => if s = "\x7b\x7d" then Option.some (PyValue.obj []) else Option.none)
        "```json\n\x7b\x7d\n```" = PyValue.obj []
    ∧ isTaskResultJson (PyValue.obj []) = false
    ∧ parseRest
        (fun s => if s = "\x7b\x7d" then Option.some (PyValue.obj []) else Option.none)
        "```json\n\x7b\x7d\n```" =
      PyValue.obj [("status", PyValue.bool true),
        ("summary", PyValue.str "```json\n\x7b\x7d\n```"),
        ("insights", PyValue.str "")] :=
  ⟨rfl, rfl, rfl⟩

/-- C7 (amended): when the fence search finds a block, its stripped inner
content is handed to `json.loads`; ANY successful parse (no TaskResult
schema validation) becomes the result, and only a parse failure falls
through to the later stages. -/
theorem parse_result_json_code_block (jl : String → Option PyValue)
    (result : String) (g : List Char)
    (hg : searchFence result.data = Option.some g) :
    (∀ v, jl (pyStrip (String.mk g)) = Option.some v →
      parseResultJson jl result = v)
    ∧ (jl (pyStrip (String.mk g)) = Option.none →
      parseResultJson jl result = parseRest jl result) := by
  have hred : parseResultJson jl result =
      (match jl (pyStrip (String.mk g)) with
       | Option.some v => v
       | Option.none => parseRest jl result) := by
    unfold parseResultJson
    rw [hg]
  constructor
  · intro v hv
    rw [hred, hv]
  · intro hv
    rw [hred, hv]

/-- C7 (witness): the spec's own example: a tagged fenced block holding a
valid TaskResult JSON object is extracted. -/
theorem parse_result_json_code_block_witness :
    parseResultJson
      (fun s =>
        if s = "\x7b\"status\": true, \"summary\": \"ok\", \"insights\": \"\"\x7d"
        then Option.some (PyValue.obj [("status", PyValue.bool true),
          ("summary", PyValue.str "ok"), ("insights", PyValue.str "")])
        else Option.none)
      "```json\n\x7b\"status\": true, \"summary\": \"ok\", \"insights\": \"\"\x7d\n```" =
    PyValue.obj [("status", PyValue.bool true),
      ("summary", PyValue.str "ok"), ("insights", PyValue.str "")] :=
  (parse_result_json_code_block
    (fun s =>
      if s = "\x7b\"status\": true, \"summary\": \"ok\", \"insights\": \"\"\x7d"
      then Option.some (PyValue.obj [("status", PyValue.bool true),
        ("summary", PyValue.str "ok"), ("insights", PyValue.str "")])
      else Option.none)
    "```json\n\x7b\"status\": true, \"summary\": \"ok\", \"insights\": \"\"\x7d\n```"
    ("\x7b\"status\": true, \"summary\": \"ok\", \"insights\": \"\"\x7d").data
    rfl).1 _ rfl

/-- C8: when the fence stage yields nothing parseable and the whole
(stripped) text does not parse either, the ladder synthesizes
`{status: true, summary: result[:500], insights: ""}`. -/
theorem parse_result_json_fallback (jl : String → Option PyValue)
    (result : String)
    (hfence : ∀ g, searchFence result.data = Option.some g →
      jl (pyStrip (String.mk g)) = Option.none)
    (hwhole : jl (pyStrip result) = Option.none) :
    parseResultJson jl result =
      PyValue.obj [("status", PyValue.bool true),
        ("summary", PyValue.str (String.mk (result.data.take 500))),
        ("insights", PyValue.str "")] := by
  cases hs : searchFence result.data with
  | none =>
    have hred : parseResultJson jl result = parseRest jl result := by
      unfold parseResultJson
      rw [hs]
    rw [hred]
    unfold parseRest
    rw [hwhole]
  | some g =>
    have hred : parseResultJson jl result =
        (match jl (pyStrip (String.mk g)) with
         | Option.some v => v
         | Option.none => parseRest jl result) := by
      unfold parseResultJson
      rw [hs]
    rw [hred, hfence g hs]
    unfold parseRest
    rw [hwhole]

/-- C8 (witness): the spec's own example: plain non-JSON text under 500
characters is synthesized into a successful TaskResult with the text as
summary, unchanged. -/
theorem parse_result_json_fallback_witness :
    parseResultJson (fun _ => Option.none) "plain non-json text" =
      PyValue.obj [("status", PyValue.bool true),
        ("summary", PyValue.str "plain non-json text"),
        ("insights", PyValue.str "")] :=
  parse_result_json_fallback (fun _ => Option.none) "plain non-json text"
    (fun _ _ => rfl) rfl

theorem escList_append (a b : List Char) :
    escList (a ++ b) = escList a ++ escList b := by
  induction a with
  | nil => rfl
  | cons c cs ih =>
    by_cases h : c = '\n' <;> simp [escList, h, ih]

theorem newline_not_mem_escList (l : List Char) : '\n' ∉ escList l := by
  induction l with
  | nil => simp [escList]
  | cons c cs ih =>
    by_cases h : c = '\n'
    · simp only [escList, h, if_true]
      intro hmem
      simp only [List.mem_cons] at hmem
      rcases hmem with h1 | h1 | h1
      · exact absurd h1 (by decide)
      · exact absurd h1 (by decide)
      · exact ih h1
    · simp only [escList, h, if_false]
      intro hmem
      simp only [List.mem_cons] at hmem
      rcases hmem with h1 | h1
      · exact h h1.symm
      · exact ih h1

/-- C9: the rendered tool-result trace shows status `ERROR` iff `is_error`
and otherwise `OK`; content longer than 200 characters is displayed as its
first 100 characters, an ellipsis marker, and its last 100 characters,
shorter content in full; newline characters are displayed as the
two-character sequence `\n`, so no literal newline survives. -/
theorem tool_result_rendering (content : String) (e : Bool) :
    (200 < content.data.length →
      (renderToolResultDisplay content).data =
        escList (content.data.take 100) ++ ('.' :: '.' :: '.' :: [])
          ++ escList (content.data.drop (content.data.length - 100)))
    ∧ (content.data.length ≤ 200 →
      (renderToolResultDisplay content).data = escList content.data)
    ∧ '\n' ∉ (renderToolResultDisplay content).data
    ∧ renderStatus e = (if e then "ERROR" else "OK") := by
  refine ⟨?_, ?_, ?_, rfl⟩
  · intro h
    simp only [renderToolResultDisplay, escapeNewlines, if_pos h]
    rw [String.data_append, String.data_append]
    show escList (content.data.take 100 ++ "...".data
        ++ content.data.drop (content.data.length - 100)) = _
    rw [escList_append, escList_append]
    rfl
  · intro h
    have hnot : ¬ (200 < content.data.length) := by omega
    simp only [renderToolResultDisplay, escapeNewlines, if_neg hnot]
  · exact newline_not_mem_escList _

set_option maxRecDepth 10000 in
/-- C9 (witness): a 250-character content (starting with a newline)
renders as the escaped first 100 characters, the ellipsis, and the last
100 characters. -/
theorem tool_result_rendering_witness :
    (renderToolResultDisplay (String.mk ('\n' :: List.replicate 249 'a'))).data =
      ('\\' :: 'n' :: List.replicate 99 'a') ++ ('.' :: '.' :: '.' :: [])
        ++ List.replicate 100 'a' :=
  (tool_result_rendering (String.mk ('\n' :: List.replicate 249 'a')) true).1
    (by show 200 < ('\n' :: List.replicate 249 'a').length
        simp [List.length_replicate])
